import Mathlib

/-!
Verification development for the budgeting-app backend (Django app `wallets`).

The Python source under `backend/wallets/` is shallowly embedded below:
Django models become Lean structures, the database is a `DB` record of
lists of rows, and each REST operation (view + serializer pipeline) becomes
a pure function `DB → ... → DB × Except ApiError α` that mirrors the
source's validation-then-write order. Decimal amounts are modelled as
integers in cents; UUID primary keys are modelled as naturals (UUID objects
are always truthy in Python, so a present id is `some _`).
-/

namespace Budgeting

abbrev UserId := Nat
abbrev WalletId := Nat
abbrev TxId := Nat
abbrev CatId := Nat
abbrev TagId := Nat

/-- Currency enum from `models.py`: choices usd/eur/gbp/pln on both
`Wallet.currency` and `Transaction.currency`. -/
inductive Currency
  | usd
  | eur
  | gbp
  | pln
deriving DecidableEq, Repr

/-- Row of the `Wallet` model (`models.py`): id, name, user (owner),
initial_value (decimal, here cents), currency. -/
structure Wallet where
  id : WalletId
  name : String
  user : UserId
  initial_value : Int
  currency : Currency
deriving DecidableEq, Repr

/-- Row of the `TransactionCategory` model (`models.py`): id, name, user,
icon, color, is_visible, is_archived; Meta has
`unique_together [name, user]`. Timestamps are omitted (no claim reads
them). -/
structure TransactionCategory where
  id : CatId
  name : String
  user : UserId
  icon : String
  color : String
  is_visible : Bool
  is_archived : Bool
deriving DecidableEq, Repr

/-- Row of the `UserTransactionTag` model (`models.py`): id, name, user,
icon, color, is_visible; Meta has `unique_together [name, user]`. -/
structure UserTransactionTag where
  id : TagId
  name : String
  user : UserId
  icon : String
  color : String
  is_visible : Bool
deriving DecidableEq, Repr

/-- Row of the `Transaction` model (`models.py`): note, amount (signed,
positive income / negative expense), currency, date (auto_now_add, here an
abstract immutable stamp), wallet FK (on_delete=CASCADE), created_by,
optional category FK (on_delete=SET_NULL), tags M2M. -/
structure Transaction where
  id : TxId
  note : String
  amount : Int
  currency : Currency
  date : Nat
  wallet : WalletId
  created_by : UserId
  category : Option CatId
  tags : List TagId
deriving DecidableEq, Repr

/-- The database state: one list of rows per model. -/
structure DB where
  wallets : List Wallet
  categories : List TransactionCategory
  tags : List UserTransactionTag
  transactions : List Transaction
deriving DecidableEq, Repr

/-- Primary keys are unique in each table (UUID primary keys in the
source). -/
def WF (db : DB) : Prop :=
  (db.wallets.map (·.id)).Nodup ∧
  (db.categories.map (·.id)).Nodup ∧
  (db.tags.map (·.id)).Nodup ∧
  (db.transactions.map (·.id)).Nodup

instance (db : DB) : Decidable (WF db) := by
  unfold WF; infer_instance

/-- Errors the REST layer can surface, per the error taxonomy: NotFound
(`get_object_or_404` / empty queryset lookup), ValidationError (serializer
validation), Conflict (the `unique_together` database constraint rejecting
a duplicate insert). -/
inductive ApiError
  | notFound
  | validation (msg : String)
  | conflict
deriving DecidableEq, Repr

/-! ## Object resolution (views.py querysets) -/

/-- `WalletDetail.get_object` (views.py): `get_object_or_404(Wallet,
id=wallet_id, user=request.user)`; `none` is the 404. The same lookup is
used by `WalletTransactionList` for the wallet context. -/
def wallet_get_object (db : DB) (u : UserId) (wid : WalletId) : Option Wallet :=
  db.wallets.find? (fun w => w.id = wid ∧ w.user = u)

/-- `TransactionDetail.get_queryset` (views.py): transactions whose wallet
is in `Wallet.objects.filter(user=request.user)`, then lookup by pk. -/
def transaction_get_object (db : DB) (u : UserId) (txId : TxId) : Option Transaction :=
  db.transactions.find?
    (fun t => t.id = txId ∧ db.wallets.any (fun w => w.id = t.wallet ∧ w.user = u))

/-- `UserCategoryDetail.get_queryset` (views.py):
`TransactionCategory.objects.filter(user=request.user)`, then lookup by pk. -/
def category_get_object (db : DB) (u : UserId) (cid : CatId) : Option TransactionCategory :=
  db.categories.find? (fun c => c.id = cid ∧ c.user = u)

/-- `UserTagDetail.get_queryset` (views.py):
`UserTransactionTag.objects.filter(user=request.user)`, then lookup by pk. -/
def tag_get_object (db : DB) (u : UserId) (tid : TagId) : Option UserTransactionTag :=
  db.tags.find? (fun t => t.id = tid ∧ t.user = u)

/-! ## Balance (serializers.py, WalletSerializer.get_balance) -/

/-- Django's `aggregate(Sum(..))`: `None` on an empty queryset, the sum
otherwise. -/
def aggregateSum (l : List Int) : Option Int :=
  if l.isEmpty then none else some l.sum

/-- `WalletSerializer.get_balance` (serializers.py): filter transactions by
wallet, aggregate `Sum('amount')` with an `or 0` fallback, add
`initial_value`. -/
def get_balance (db : DB) (w : Wallet) : Int :=
  let transactions := db.transactions.filter (fun t => t.wallet = w.id)
  let total := (aggregateSum (transactions.map (·.amount))).getD 0
  w.initial_value + total

/-! ## Transaction serializer validation (serializers.py) -/

/-- `TransactionSerializer.validate_category_id`: a present category id
must belong to the requesting user (`filter(id=value, user=user)`); note
that `is_archived` is NOT part of the filter. -/
def validate_category_id (db : DB) (u : UserId) (value : Option CatId) :
    Except String (Option CatId) :=
  match value with
  | some cid =>
      if db.categories.any (fun c => c.id = cid ∧ c.user = u) then
        Except.ok value
      else
        Except.error "Category not found or does not belong to you."
  | none => Except.ok none

/-- `TransactionSerializer.validate_tag_ids`: every listed tag id must
belong to the requesting user; the error names the offending tag. -/
def validate_tag_ids (db : DB) (u : UserId) (value : List TagId) :
    Except String (List TagId) :=
  match value with
  | [] => Except.ok []
  | tid :: rest =>
      if db.tags.any (fun t => t.id = tid ∧ t.user = u) then
        match validate_tag_ids db u rest with
        | Except.ok _ => Except.ok (tid :: rest)
        | Except.error m => Except.error m
      else
        Except.error ("Tag with id " ++ toString tid ++ " not found or does not belong to you.")

/-- `TransactionSerializer.validate`: object-level check that the
transaction currency matches the context wallet's currency; skipped if
either the wallet context or the currency value is absent. -/
def validate_currency (wallet : Option Wallet) (currency : Option Currency) :
    Except String Unit :=
  match wallet, currency with
  | some w, some c =>
      if w.currency ≠ c then Except.error "Transaction currency must match wallet currency."
      else Except.ok ()
  | _, _ => Except.ok ()

/-- The tags actually linked by `instance.tags.set(
UserTransactionTag.objects.filter(id__in=tag_ids, user=request.user))`. -/
def ownedTagIds (db : DB) (u : UserId) (l : List TagId) : List TagId :=
  (db.tags.filter (fun tg => tg.id ∈ l ∧ tg.user = u)).map (·.id)

/-- Write payload of `TransactionSerializer` on create: note, amount,
currency (required fields), optional `category_id`, `tag_ids` (absent and
explicit-null category are indistinguishable in `create`). -/
structure TxPayload where
  note : String
  amount : Int
  currency : Currency
  category_id : Option CatId
  tag_ids : List TagId
deriving DecidableEq, Repr

/-- `TransactionSerializer.create` (serializers.py): pop `category_id`
(attach the category when truthy), pop `tag_ids`, create the row with
wallet/created_by from `perform_create` and `date=now`, then
`tags.set(...)` when `tag_ids` is non-empty (a fresh row has no tags
either way). -/
def serializer_create (db : DB) (u : UserId) (w : Wallet) (fresh : TxId)
    (date : Nat) (p : TxPayload) : Transaction :=
  { id := fresh
    note := p.note
    amount := p.amount
    currency := p.currency
    date := date
    wallet := w.id
    created_by := u
    category := p.category_id
    tags := if p.tag_ids = [] then [] else ownedTagIds db u p.tag_ids }

/-- POST `/wallets/{wallet_id}/transactions/`
(`WalletTransactionList.perform_create` + serializer pipeline): resolve the
wallet by (id, owner) — 404 otherwise — then run field-level validation
(`validate_category_id`, `validate_tag_ids`), then object-level
`validate` (currency), and only on success write the new row. -/
def createTransaction (db : DB) (u : UserId) (wid : WalletId) (p : TxPayload)
    (fresh : TxId) (date : Nat) : DB × Except ApiError Transaction :=
  match wallet_get_object db u wid with
  | none => (db, Except.error ApiError.notFound)
  | some w =>
      match validate_category_id db u p.category_id with
      | Except.error m => (db, Except.error (ApiError.validation m))
      | Except.ok _ =>
          match validate_tag_ids db u p.tag_ids with
          | Except.error m => (db, Except.error (ApiError.validation m))
          | Except.ok _ =>
              match validate_currency (some w) (some p.currency) with
              | Except.error m => (db, Except.error (ApiError.validation m))
              | Except.ok _ =>
                  let t := serializer_create db u w fresh date p
                  ({ db with transactions := db.transactions ++ [t] }, Except.ok t)

/-- Write payload of `TransactionSerializer` on update. `category_id_present`
records whether the key appears in `initial_data` (the source distinguishes
explicit null from an omitted key there); `tag_ids = none` means the key was
omitted from the payload. -/
structure TxUpdatePayload where
  note : Option String
  amount : Option Int
  currency : Option Currency
  category_id_present : Bool
  category_id : Option CatId
  tag_ids : Option (List TagId)
deriving DecidableEq, Repr

/-- DRF deserialization of the `tag_ids` field on update: the field is
declared `required=False, default=[]`, so an omitted key is skipped under a
partial (PATCH) update but receives the default `[]` under a full (PUT)
update; a supplied list is passed through. -/
def deserialize_tag_ids (patchMode : Bool) (p : TxUpdatePayload) : Option (List TagId) :=
  match p.tag_ids with
  | some l => some l
  | none => if patchMode then none else some []

/-- `TransactionSerializer.update` (serializers.py): pop `category_id`; a
truthy value attaches that category, an explicit null present in
`initial_data` clears it, an absent key leaves it; scalar fields present in
validated data overwrite; finally `tags.set(owned tags)` exactly when the
deserialized `tag_ids` is not `None`. `date` is `auto_now_add`, hence
read-only and never touched. -/
def serializer_update (db : DB) (u : UserId) (t : Transaction)
    (p : TxUpdatePayload) (vtags : Option (List TagId)) : Transaction :=
  let category : Option CatId :=
    match p.category_id_present, p.category_id with
    | true, some cid => some cid
    | true, none => none
    | false, _ => t.category
  let t1 : Transaction :=
    { t with
        note := p.note.getD t.note
        amount := p.amount.getD t.amount
        currency := p.currency.getD t.currency
        category := category }
  match vtags with
  | none => t1
  | some l => { t1 with tags := ownedTagIds db u l }

/-- PUT/PATCH `/transactions/{id}/` (`TransactionDetail` + serializer
pipeline): resolve the transaction through the owner's wallets — 404
otherwise — take the transaction's wallet as serializer context, check
required fields (note/amount/currency are required on a full update), run
field-level then object-level validation, and only on success overwrite the
row. `patchMode` is true for PATCH, false for PUT. -/
def updateTransaction (db : DB) (u : UserId) (patchMode : Bool) (txId : TxId)
    (p : TxUpdatePayload) : DB × Except ApiError Transaction :=
  match transaction_get_object db u txId with
  | none => (db, Except.error ApiError.notFound)
  | some t =>
      match db.wallets.find? (fun w => w.id = t.wallet) with
      | none => (db, Except.error ApiError.notFound)
      | some w =>
          if ¬patchMode ∧ (p.note.isNone ∨ p.amount.isNone ∨ p.currency.isNone) then
            (db, Except.error (ApiError.validation "This field is required."))
          else
            match validate_category_id db u
                (if p.category_id_present then p.category_id else none) with
            | Except.error m => (db, Except.error (ApiError.validation m))
            | Except.ok _ =>
                let vtags := deserialize_tag_ids patchMode p
                match validate_tag_ids db u (vtags.getD []) with
                | Except.error m => (db, Except.error (ApiError.validation m))
                | Except.ok _ =>
                    match validate_currency (some w) p.currency with
                    | Except.error m => (db, Except.error (ApiError.validation m))
                    | Except.ok _ =>
                        let t2 := serializer_update db u t p vtags
                        ({ db with transactions :=
                            db.transactions.map (fun t3 => if t3.id = txId then t2 else t3) },
                         Except.ok t2)

/-! ## Wallet / transaction deletion (views.py) -/

/-- DELETE `/wallets/{wallet_id}/` (`WalletDetail.perform_destroy`): resolve
by (id, owner) — 404 otherwise — then `instance.delete()`; the
`on_delete=CASCADE` on `Transaction.wallet` removes every transaction of
that wallet. -/
def deleteWallet (db : DB) (u : UserId) (wid : WalletId) : DB × Except ApiError Unit :=
  match wallet_get_object db u wid with
  | none => (db, Except.error ApiError.notFound)
  | some _ =>
      ({ db with
          wallets := db.wallets.filter (fun w => ¬w.id = wid)
          transactions := db.transactions.filter (fun t => ¬t.wallet = wid) },
       Except.ok ())

/-- DELETE `/transactions/{id}/` (`TransactionDetail`): resolve through the
owner's wallets, then delete the row. -/
def deleteTransaction (db : DB) (u : UserId) (txId : TxId) : DB × Except ApiError Unit :=
  match transaction_get_object db u txId with
  | none => (db, Except.error ApiError.notFound)
  | some _ =>
      ({ db with transactions := db.transactions.filter (fun t => ¬t.id = txId) },
       Except.ok ())

/-- GET `/transactions/{id}/` (`TransactionDetail`): the resolved row or a
404. -/
def getTransaction (db : DB) (u : UserId) (txId : TxId) : Except ApiError Transaction :=
  match transaction_get_object db u txId with
  | none => Except.error ApiError.notFound
  | some t => Except.ok t

/-- PATCH `/wallets/{wallet_id}/` (`WalletDetail.perform_update`): resolve
by (id, owner) — 404 otherwise — then apply the supplied fields. -/
structure WalletUpdatePayload where
  name : Option String
  initial_value : Option Int
  currency : Option Currency
deriving DecidableEq, Repr

def updateWallet (db : DB) (u : UserId) (wid : WalletId) (p : WalletUpdatePayload) :
    DB × Except ApiError Wallet :=
  match wallet_get_object db u wid with
  | none => (db, Except.error ApiError.notFound)
  | some w =>
      let w2 : Wallet :=
        { w with
            name := p.name.getD w.name
            initial_value := p.initial_value.getD w.initial_value
            currency := p.currency.getD w.currency }
      ({ db with wallets := db.wallets.map (fun w3 => if w3.id = wid then w2 else w3) },
       Except.ok w2)

/-! ## Category / tag stores (views.py, serializers.py, models.py) -/

/-- GET `/wallets/categories/` (`UserCategoryList.get_queryset`): the
owner's categories, always excluding `is_archived=True`, and excluding
`is_visible=False` unless `include_hidden`. -/
def listCategories (db : DB) (u : UserId) (include_hidden : Bool) :
    List TransactionCategory :=
  let queryset := db.categories.filter (fun c => c.user = u ∧ c.is_archived = false)
  if include_hidden then queryset else queryset.filter (fun c => c.is_visible)

/-- GET `/wallets/tags/` (`UserTagList.get_queryset`): the owner's tags,
excluding `is_visible=False` unless `include_hidden`. -/
def listTags (db : DB) (u : UserId) (include_hidden : Bool) : List UserTransactionTag :=
  let queryset := db.tags.filter (fun t => t.user = u)
  if include_hidden then queryset else queryset.filter (fun t => t.is_visible)

/-- POST `/wallets/categories/` (`UserCategoryList.perform_create` saving
with `user=request.user`): the insert is rejected when another row with the
same (name, user) exists — the `unique_together [name, user]` constraint of
`TransactionCategory.Meta` — surfaced as Conflict. -/
def createCategory (db : DB) (u : UserId) (name icon color : String) (fresh : CatId) :
    DB × Except ApiError TransactionCategory :=
  if db.categories.any (fun c => c.name = name ∧ c.user = u) then
    (db, Except.error ApiError.conflict)
  else
    let c : TransactionCategory :=
      { id := fresh, name := name, user := u, icon := icon, color := color
        is_visible := true, is_archived := false }
    ({ db with categories := db.categories ++ [c] }, Except.ok c)

/-- POST `/wallets/tags/` (`UserTagList.perform_create`): same shape, with
the `unique_together [name, user]` constraint of `UserTransactionTag.Meta`. -/
def createTag (db : DB) (u : UserId) (name icon color : String) (fresh : TagId) :
    DB × Except ApiError UserTransactionTag :=
  if db.tags.any (fun t => t.name = name ∧ t.user = u) then
    (db, Except.error ApiError.conflict)
  else
    let t : UserTransactionTag :=
      { id := fresh, name := name, user := u, icon := icon, color := color
        is_visible := true }
    ({ db with tags := db.tags ++ [t] }, Except.ok t)

/-- DELETE `/wallets/categories/{id}/` (`UserCategoryDetail.perform_destroy`):
soft delete — resolve by (id, owner), then set `is_archived=True` and save;
no transaction row is touched. -/
def archiveCategory (db : DB) (u : UserId) (cid : CatId) : DB × Except ApiError Unit :=
  match category_get_object db u cid with
  | none => (db, Except.error ApiError.notFound)
  | some _ =>
      ({ db with categories :=
          db.categories.map (fun c => if c.id = cid then { c with is_archived := true } else c) },
       Except.ok ())

/-- PATCH `/wallets/categories/{id}/` (`UserCategoryDetail`): resolve by
(id, owner) — 404 otherwise — then apply the supplied fields. -/
structure CategoryUpdatePayload where
  name : Option String
  icon : Option String
  color : Option String
  is_visible : Option Bool
  is_archived : Option Bool
deriving DecidableEq, Repr

def updateCategory (db : DB) (u : UserId) (cid : CatId) (p : CategoryUpdatePayload) :
    DB × Except ApiError TransactionCategory :=
  match category_get_object db u cid with
  | none => (db, Except.error ApiError.notFound)
  | some c =>
      let c2 : TransactionCategory :=
        { c with
            name := p.name.getD c.name
            icon := p.icon.getD c.icon
            color := p.color.getD c.color
            is_visible := p.is_visible.getD c.is_visible
            is_archived := p.is_archived.getD c.is_archived }
      ({ db with categories := db.categories.map (fun c3 => if c3.id = cid then c2 else c3) },
       Except.ok c2)

/-- PATCH `/wallets/tags/{id}/` (`UserTagDetail`): resolve by (id, owner),
then apply the supplied fields. -/
structure TagUpdatePayload where
  name : Option String
  icon : Option String
  color : Option String
  is_visible : Option Bool
deriving DecidableEq, Repr

def updateTag (db : DB) (u : UserId) (tid : TagId) (p : TagUpdatePayload) :
    DB × Except ApiError UserTransactionTag :=
  match tag_get_object db u tid with
  | none => (db, Except.error ApiError.notFound)
  | some t =>
      let t2 : UserTransactionTag :=
        { t with
            name := p.name.getD t.name
            icon := p.icon.getD t.icon
            color := p.color.getD t.color
            is_visible := p.is_visible.getD t.is_visible }
      ({ db with tags := db.tags.map (fun t3 => if t3.id = tid then t2 else t3) },
       Except.ok t2)

/-- DELETE `/wallets/tags/{id}/` (`UserTagDetail`): hard delete — resolve by
(id, owner), remove the row, and drop the M2M links from transactions. -/
def deleteTag (db : DB) (u : UserId) (tid : TagId) : DB × Except ApiError Unit :=
  match tag_get_object db u tid with
  | none => (db, Except.error ApiError.notFound)
  | some _ =>
      ({ db with
          tags := db.tags.filter (fun t => ¬t.id = tid)
          transactions := db.transactions.map
            (fun tx => { tx with tags := tx.tags.filter (fun x => ¬x = tid) }) },
       Except.ok ())

/-! ## Default-category seeding (constants.py, seed_categories.py) -/

/-- One entry of `DEFAULT_CATEGORIES` in constants.py. -/
structure CatTemplate where
  name : String
  icon : String
  color : String
deriving DecidableEq, Repr

/-- `DEFAULT_CATEGORIES` (constants.py): the fixed ordered template list. -/
def DEFAULT_CATEGORIES : List CatTemplate :=
  [ ⟨"Salary", "banknote", "#22C55E"⟩
  , ⟨"Freelance", "laptop", "#10B981"⟩
  , ⟨"Investments", "trending-up", "#059669"⟩
  , ⟨"Gifts Received", "gift", "#14B8A6"⟩
  , ⟨"Groceries", "shopping-cart", "#F97316"⟩
  , ⟨"Dining Out", "utensils", "#FB923C"⟩
  , ⟨"Transportation", "car", "#EAB308"⟩
  , ⟨"Entertainment", "tv", "#A855F7"⟩
  , ⟨"Shopping", "shopping-bag", "#EC4899"⟩
  , ⟨"Healthcare", "heart-pulse", "#EF4444"⟩
  , ⟨"Utilities", "zap", "#6366F1"⟩
  , ⟨"Rent/Mortgage", "home", "#8B5CF6"⟩
  , ⟨"Insurance", "shield", "#0EA5E9"⟩
  , ⟨"Education", "graduation-cap", "#06B6D4"⟩
  , ⟨"Personal Care", "sparkles", "#D946EF"⟩
  , ⟨"Gifts Given", "gift", "#F472B6"⟩
  , ⟨"Subscriptions", "repeat", "#64748B"⟩
  , ⟨"Travel", "plane", "#0284C7"⟩
  , ⟨"Other", "more-horizontal", "#6B7280"⟩ ]

/-- Whether the user already has a category with the given name — the
(name, user) match of `get_or_create`. -/
def hasCategoryNamed (db : DB) (u : UserId) (name : String) : Bool :=
  db.categories.any (fun c => c.name = name ∧ c.user = u)

/-- One `get_or_create(name=.., user=.., defaults={icon, color})` step of
`seed_categories.Command.handle`: skip when the (name, user) row exists,
insert with a fresh id otherwise. The second component threads the fresh-id
supply. -/
def seedStep (u : UserId) (acc : DB × Nat) (t : CatTemplate) : DB × Nat :=
  let (db, n) := acc
  if hasCategoryNamed db u t.name then (db, n)
  else
    ({ db with categories :=
        db.categories ++
          [{ id := n, name := t.name, user := u, icon := t.icon, color := t.color
             is_visible := true, is_archived := false }] },
     n + 1)

/-- The per-user loop of `seed_categories.Command.handle`: fold
`get_or_create` over `DEFAULT_CATEGORIES`. -/
def seedCategoriesForUser (db : DB) (u : UserId) (fresh : Nat) : DB × Nat :=
  DEFAULT_CATEGORIES.foldl (seedStep u) (db, fresh)

/-- The number of categories the owner has. -/
def userCategoryCount (db : DB) (u : UserId) : Nat :=
  (db.categories.filter (fun c => c.user = u)).length

/-! ## Concrete sample data (used by witnesses and counterexamples) -/

/-- Owner 1's wallet. -/
def exWallet : Wallet := ⟨10, "Monthly Budget", 1, 100000, Currency.usd⟩

/-- Owner 2's wallet. -/
def exWalletB : Wallet := ⟨11, "Other Budget", 2, 0, Currency.usd⟩

/-- A wallet of owner 1 with no transactions. -/
def exWalletC : Wallet := ⟨12, "Savings", 1, 50000, Currency.pln⟩

/-- Owner 1's visible category. -/
def exCat : TransactionCategory := ⟨50, "Groceries", 1, "shopping-cart", "#F97316", true, false⟩

/-- Owner 1's archived category. -/
def exCatArch : TransactionCategory := ⟨51, "Old Hobby", 1, "tv", "#A855F7", true, true⟩

/-- Owner 2's category reusing owner 1's name. -/
def exCatB : TransactionCategory := ⟨52, "Groceries", 2, "shopping-cart", "#F97316", true, false⟩

/-- A second visible category of owner 1. -/
def exCat2 : TransactionCategory := ⟨53, "Salary", 1, "banknote", "#22C55E", true, false⟩

/-- Owner 1's tag. -/
def exTag : UserTransactionTag := ⟨20, "weekly", 1, "tag", "#3B82F6", true⟩

/-- Owner 2's tag. -/
def exTagB : UserTransactionTag := ⟨21, "work", 2, "tag", "#3B82F6", true⟩

/-- A transaction in owner 1's wallet, categorized and tagged. -/
def exTx : Transaction := ⟨30, "Weekly groceries", -15050, Currency.usd, 1, 10, 1, some 50, [20]⟩

/-- A transaction in owner 2's wallet. -/
def exTxB : Transaction := ⟨31, "Misc", 500, Currency.usd, 1, 11, 2, none, []⟩

/-- Sample database with two owners. -/
def exDb : DB :=
  ⟨[exWallet, exWalletB, exWalletC],
   [exCat, exCatArch, exCatB, exCat2],
   [exTag, exTagB],
   [exTx, exTxB]⟩

/-! ## Helper lemmas -/

/-- Aggregate-sum with the `or 0` fallback is the plain list sum. -/
theorem aggregateSum_getD (l : List Int) : (aggregateSum l).getD 0 = l.sum := by
  unfold aggregateSum
  cases l <;> simp

/-- Rows with equal primary keys are equal in a table with `Nodup` keys. -/
theorem eq_of_nodup_key {α : Type} {f : α → Nat} {l : List α}
    (h : (l.map f).Nodup) {x y : α} (hx : x ∈ l) (hy : y ∈ l) (hf : f x = f y) :
    x = y :=
  List.inj_on_of_nodup_map h hx hy hf

/-- An owned wallet resolves to itself. -/
theorem wallet_get_object_eq_some (db : DB) (u : UserId) (w : Wallet)
    (hwf : WF db) (hw : w ∈ db.wallets) (hu : w.user = u) :
    wallet_get_object db u w.id = some w := by
  unfold wallet_get_object
  cases hfind : db.wallets.find? (fun w2 => w2.id = w.id ∧ w2.user = u) with
  | none =>
      rw [List.find?_eq_none] at hfind
      have := hfind w hw
      simp [hu] at this
  | some w2 =>
      have hmem := List.mem_of_find?_eq_some hfind
      have hpred := List.find?_some hfind
      simp only [decide_eq_true_eq] at hpred
      exact congrArg some (eq_of_nodup_key hwf.1 hmem hw hpred.1)

/-- A wallet of another owner does not resolve. -/
theorem wallet_get_object_none_of_other (db : DB) (a : UserId) (w : Wallet)
    (hwf : WF db) (hw : w ∈ db.wallets) (hne : w.user ≠ a) :
    wallet_get_object db a w.id = none := by
  unfold wallet_get_object
  rw [List.find?_eq_none]
  intro x hx
  simp only [decide_eq_true_eq, not_and]
  intro hid hu
  exact absurd (congrArg Wallet.user (eq_of_nodup_key hwf.1 hx hw hid)) (hu ▸ hne ∘ Eq.symm)

/-- An absent wallet id does not resolve. -/
theorem wallet_get_object_none_of_absent (db : DB) (a : UserId) (wid : WalletId)
    (h : ∀ w ∈ db.wallets, w.id ≠ wid) :
    wallet_get_object db a wid = none := by
  unfold wallet_get_object
  rw [List.find?_eq_none]
  intro x hx
  simp only [decide_eq_true_eq, not_and]
  intro hid
  exact absurd hid (h x hx)

/-- An owned category resolves to itself. -/
theorem category_get_object_eq_some (db : DB) (u : UserId) (c : TransactionCategory)
    (hwf : WF db) (hc : c ∈ db.categories) (hu : c.user = u) :
    category_get_object db u c.id = some c := by
  unfold category_get_object
  cases hfind : db.categories.find? (fun c2 => c2.id = c.id ∧ c2.user = u) with
  | none =>
      rw [List.find?_eq_none] at hfind
      have := hfind c hc
      simp [hu] at this
  | some c2 =>
      have hmem := List.mem_of_find?_eq_some hfind
      have hpred := List.find?_some hfind
      simp only [decide_eq_true_eq] at hpred
      exact congrArg some (eq_of_nodup_key hwf.2.1 hmem hc hpred.1)

/-- A category of another owner does not resolve. -/
theorem category_get_object_none_of_other (db : DB) (a : UserId) (c : TransactionCategory)
    (hwf : WF db) (hc : c ∈ db.categories) (hne : c.user ≠ a) :
    category_get_object db a c.id = none := by
  unfold category_get_object
  rw [List.find?_eq_none]
  intro x hx
  simp only [decide_eq_true_eq, not_and]
  intro hid hu
  exact absurd (congrArg TransactionCategory.user (eq_of_nodup_key hwf.2.1 hx hc hid))
    (hu ▸ hne ∘ Eq.symm)

/-- An absent category id does not resolve. -/
theorem category_get_object_none_of_absent (db : DB) (a : UserId) (cid : CatId)
    (h : ∀ c ∈ db.categories, c.id ≠ cid) :
    category_get_object db a cid = none := by
  unfold category_get_object
  rw [List.find?_eq_none]
  intro x hx
  simp only [decide_eq_true_eq, not_and]
  intro hid
  exact absurd hid (h x hx)

/-- A tag of another owner does not resolve. -/
theorem tag_get_object_none_of_other (db : DB) (a : UserId) (t : UserTransactionTag)
    (hwf : WF db) (ht : t ∈ db.tags) (hne : t.user ≠ a) :
    tag_get_object db a t.id = none := by
  unfold tag_get_object
  rw [List.find?_eq_none]
  intro x hx
  simp only [decide_eq_true_eq, not_and]
  intro hid hu
  exact absurd (congrArg UserTransactionTag.user (eq_of_nodup_key hwf.2.2.1 hx ht hid))
    (hu ▸ hne ∘ Eq.symm)

/-- An absent tag id does not resolve. -/
theorem tag_get_object_none_of_absent (db : DB) (a : UserId) (tid : TagId)
    (h : ∀ t ∈ db.tags, t.id ≠ tid) :
    tag_get_object db a tid = none := by
  unfold tag_get_object
  rw [List.find?_eq_none]
  intro x hx
  simp only [decide_eq_true_eq, not_and]
  intro hid
  exact absurd hid (h x hx)

/-- A transaction whose wallet belongs to another owner does not resolve. -/
theorem transaction_get_object_none_of_other (db : DB) (a : UserId)
    (t : Transaction) (w : Wallet) (hwf : WF db)
    (ht : t ∈ db.transactions) (hw : w ∈ db.wallets) (hww : w.id = t.wallet)
    (hne : w.user ≠ a) :
    transaction_get_object db a t.id = none := by
  unfold transaction_get_object
  rw [List.find?_eq_none]
  intro x hx
  simp only [decide_eq_true_eq, not_and]
  intro hid hany
  have hxt : x = t := eq_of_nodup_key hwf.2.2.2 hx ht hid
  subst hxt
  rw [List.any_eq_true] at hany
  obtain ⟨w2, hw2, hpred⟩ := hany
  simp only [decide_eq_true_eq] at hpred
  have : w2 = w := eq_of_nodup_key hwf.1 hw2 hw (hpred.1.trans hww.symm)
  exact hne (this ▸ hpred.2)

/-- An absent transaction id does not resolve. -/
theorem transaction_get_object_none_of_absent (db : DB) (a : UserId) (txId : TxId)
    (h : ∀ t ∈ db.transactions, t.id ≠ txId) :
    transaction_get_object db a txId = none := by
  unfold transaction_get_object
  rw [List.find?_eq_none]
  intro x hx
  simp only [decide_eq_true_eq, not_and]
  intro hid
  exact absurd hid (h x hx)

/-- A seeding step never loses an existing (name, user) match. -/
theorem hasCategoryNamed_seedStep (u : UserId) (acc : DB × Nat) (t : CatTemplate)
    (name : String) (h : hasCategoryNamed acc.1 u name = true) :
    hasCategoryNamed (seedStep u acc t).1 u name = true := by
  rcases acc with ⟨db, n⟩
  simp only [seedStep]
  split
  · exact h
  · simp only [hasCategoryNamed, List.any_append] at h ⊢
    rw [h]
    rfl

/-- A seeding fold never loses an existing (name, user) match. -/
theorem hasCategoryNamed_seedFold (u : UserId) (ts : List CatTemplate)
    (acc : DB × Nat) (name : String) (h : hasCategoryNamed acc.1 u name = true) :
    hasCategoryNamed (ts.foldl (seedStep u) acc).1 u name = true := by
  induction ts generalizing acc with
  | nil => simpa using h
  | cons t ts ih => exact ih _ (hasCategoryNamed_seedStep u acc t name h)

/-- After the seeding fold, every template name is present for the user. -/
theorem seedFold_adds_all (u : UserId) (ts : List CatTemplate) (acc : DB × Nat) :
    ∀ t ∈ ts, hasCategoryNamed (ts.foldl (seedStep u) acc).1 u t.name = true := by
  induction ts generalizing acc with
  | nil => intro t ht; cases ht
  | cons t0 ts ih =>
      intro t ht
      rcases List.mem_cons.mp ht with rfl | hmem
      · rw [List.foldl_cons]
        apply hasCategoryNamed_seedFold
        rcases acc with ⟨db, n⟩
        simp only [seedStep]
        split
        · assumption
        · simp [hasCategoryNamed, List.any_append]
      · exact ih _ t hmem

/-- The seeding fold is a no-op when every template name is present. -/
theorem seedFold_noop (u : UserId) (ts : List CatTemplate) (db : DB) (n : Nat)
    (h : ∀ t ∈ ts, hasCategoryNamed db u t.name = true) :
    ts.foldl (seedStep u) (db, n) = (db, n) := by
  induction ts with
  | nil => rfl
  | cons t ts ih =>
      have h0 := h t (List.mem_cons_self t ts)
      rw [List.foldl_cons]
      have hstep : seedStep u (db, n) t = (db, n) := by
        simp [seedStep, h0]
      rw [hstep]
      exact ih (fun t2 ht2 => h t2 (List.mem_cons_of_mem _ ht2))

/-! ## Claims -/

/-- C1: for every wallet W, the serialized balance equals W.initial_value
plus the sum of the signed amounts of all transactions whose wallet is W;
in particular a wallet with no transactions has balance exactly
W.initial_value. -/
theorem balance_is_initial_plus_signed_sum (db : DB) (w : Wallet) :
    get_balance db w =
      w.initial_value +
        ((db.transactions.filter (fun t => t.wallet = w.id)).map (·.amount)).sum ∧
    (db.transactions.filter (fun t => t.wallet = w.id) = [] →
      get_balance db w = w.initial_value) := by
  constructor
  · simp only [get_balance, aggregateSum_getD]
  · intro he
    simp [get_balance, he, aggregateSum]

/-- Witness for C1 at a concrete wallet with no transactions. -/
theorem balance_is_initial_plus_signed_sum_witness :
    get_balance exDb exWalletC =
      exWalletC.initial_value +
        ((exDb.transactions.filter (fun t => t.wallet = exWalletC.id)).map (·.amount)).sum ∧
    get_balance exDb exWalletC = exWalletC.initial_value :=
  ⟨(balance_is_initial_plus_signed_sum exDb exWalletC).1,
   (balance_is_initial_plus_signed_sum exDb exWalletC).2 (by decide)⟩

/-- C4: default-category seeding is idempotent — seeding a second time for
the same owner is a no-op (every template name is skipped because the owner
already has it), so the owner's category count is unchanged. -/
theorem seed_categories_idempotent (db : DB) (u : UserId) (f1 f2 : Nat) :
    seedCategoriesForUser (seedCategoriesForUser db u f1).1 u f2 =
      ((seedCategoriesForUser db u f1).1, f2) ∧
    userCategoryCount (seedCategoriesForUser (seedCategoriesForUser db u f1).1 u f2).1 u =
      userCategoryCount (seedCategoriesForUser db u f1).1 u := by
  have hall : ∀ t ∈ DEFAULT_CATEGORIES,
      hasCategoryNamed (seedCategoriesForUser db u f1).1 u t.name = true :=
    seedFold_adds_all u DEFAULT_CATEGORIES (db, f1)
  have h := seedFold_noop u DEFAULT_CATEGORIES (seedCategoriesForUser db u f1).1 f2 hall
  refine ⟨h, ?_⟩
  show userCategoryCount (DEFAULT_CATEGORIES.foldl (seedStep u)
    ((seedCategoriesForUser db u f1).1, f2)).1 u = _
  rw [h]

/-- C5: creating a second category (resp. tag) with a name the same owner
already uses fails with Conflict, while a different owner may create one
with that very name despite the first owner's record. -/
theorem name_owner_uniqueness :
    (∀ (db : DB) (a : UserId) (name icon color : String) (fresh : CatId),
      (∃ c ∈ db.categories, c.name = name ∧ c.user = a) →
        createCategory db a name icon color fresh = (db, Except.error ApiError.conflict)) ∧
    (∀ (db : DB) (a b : UserId) (name icon color : String) (fresh : CatId),
      a ≠ b →
      (∃ c ∈ db.categories, c.name = name ∧ c.user = a) →
      (¬∃ c ∈ db.categories, c.name = name ∧ c.user = b) →
        ∃ c, (createCategory db b name icon color fresh).2 = Except.ok c ∧
          c.name = name ∧ c.user = b ∧
          c ∈ (createCategory db b name icon color fresh).1.categories) ∧
    (∀ (db : DB) (a : UserId) (name icon color : String) (fresh : TagId),
      (∃ t ∈ db.tags, t.name = name ∧ t.user = a) →
        createTag db a name icon color fresh = (db, Except.error ApiError.conflict)) ∧
    (∀ (db : DB) (a b : UserId) (name icon color : String) (fresh : TagId),
      a ≠ b →
      (∃ t ∈ db.tags, t.name = name ∧ t.user = a) →
      (¬∃ t ∈ db.tags, t.name = name ∧ t.user = b) →
        ∃ t, (createTag db b name icon color fresh).2 = Except.ok t ∧
          t.name = name ∧ t.user = b ∧
          t ∈ (createTag db b name icon color fresh).1.tags) := by
  refine ⟨?_, ?_, ?_, ?_⟩
  · rintro db a name icon color fresh ⟨c, hc, hn, hu⟩
    unfold createCategory
    rw [if_pos]
    rw [List.any_eq_true]
    exact ⟨c, hc, by simp [hn, hu]⟩
  · rintro db a b name icon color fresh _ _ hnot
    have hfalse : ¬(db.categories.any (fun c => c.name = name ∧ c.user = b) = true) := by
      rw [List.any_eq_true]
      rintro ⟨c, hc, hp⟩
      simp only [decide_eq_true_eq] at hp
      exact hnot ⟨c, hc, hp⟩
    refine ⟨{ id := fresh, name := name, user := b, icon := icon, color := color,
              is_visible := true, is_archived := false }, ?_, rfl, rfl, ?_⟩
    · simp only [createCategory, if_neg hfalse]
    · simp only [createCategory, if_neg hfalse]
      exact List.mem_append_right _ (List.mem_singleton.mpr rfl)
  · rintro db a name icon color fresh ⟨t, ht, hn, hu⟩
    unfold createTag
    rw [if_pos]
    rw [List.any_eq_true]
    exact ⟨t, ht, by simp [hn, hu]⟩
  · rintro db a b name icon color fresh _ _ hnot
    have hfalse : ¬(db.tags.any (fun t => t.name = name ∧ t.user = b) = true) := by
      rw [List.any_eq_true]
      rintro ⟨t, ht, hp⟩
      simp only [decide_eq_true_eq] at hp
      exact hnot ⟨t, ht, hp⟩
    refine ⟨{ id := fresh, name := name, user := b, icon := icon, color := color,
              is_visible := true }, ?_, rfl, rfl, ?_⟩
    · simp only [createTag, if_neg hfalse]
    · simp only [createTag, if_neg hfalse]
      exact List.mem_append_right _ (List.mem_singleton.mpr rfl)

/-- Witness for C5: owner 1 already has category "Groceries" and tag
"weekly"; duplicates conflict for owner 1, while owners 3 and 2 may reuse
the names. -/
theorem name_owner_uniqueness_witness :
    createCategory exDb 1 "Groceries" "shopping-cart" "#F97316" 60 =
      (exDb, Except.error ApiError.conflict) ∧
    (∃ c, (createCategory exDb 3 "Groceries" "shopping-cart" "#F97316" 61).2 = Except.ok c ∧
      c.name = "Groceries" ∧ c.user = 3 ∧
      c ∈ (createCategory exDb 3 "Groceries" "shopping-cart" "#F97316" 61).1.categories) ∧
    createTag exDb 1 "weekly" "tag" "#3B82F6" 62 = (exDb, Except.error ApiError.conflict) ∧
    (∃ t, (createTag exDb 2 "weekly" "tag" "#3B82F6" 63).2 = Except.ok t ∧
      t.name = "weekly" ∧ t.user = 2 ∧
      t ∈ (createTag exDb 2 "weekly" "tag" "#3B82F6" 63).1.tags) :=
  ⟨name_owner_uniqueness.1 exDb 1 "Groceries" "shopping-cart" "#F97316" 60 (by decide),
   name_owner_uniqueness.2.1 exDb 1 3 "Groceries" "shopping-cart" "#F97316" 61
     (by decide) (by decide) (by decide),
   name_owner_uniqueness.2.2.1 exDb 1 "weekly" "tag" "#3B82F6" 62 (by decide),
   name_owner_uniqueness.2.2.2 exDb 1 2 "weekly" "tag" "#3B82F6" 63
     (by decide) (by decide) (by decide)⟩

/-- C2: creating a transaction against an owned wallet with a currency
different from the wallet's fails with a ValidationError, for every
differing pair of the four currencies. -/
theorem currency_mismatch_rejected (db : DB) (u : UserId) (w : Wallet) (c : Currency)
    (hwf : WF db) (hw : w ∈ db.wallets) (hu : w.user = u) (hne : c ≠ w.currency)
    (note : String) (amt : Int) (catId : Option CatId) (tagIds : List TagId)
    (fresh : TxId) (date : Nat) :
    ∃ m, (createTransaction db u w.id ⟨note, amt, c, catId, tagIds⟩ fresh date).2 =
      Except.error (ApiError.validation m) := by
  have hres := wallet_get_object_eq_some db u w hwf hw hu
  cases hc : validate_category_id db u catId with
  | error m => exact ⟨m, by simp [createTransaction, hres, hc]⟩
  | ok v =>
      cases ht : validate_tag_ids db u tagIds with
      | error m => exact ⟨m, by simp [createTransaction, hres, hc, ht]⟩
      | ok v2 =>
          refine ⟨"Transaction currency must match wallet currency.", ?_⟩
          have hwc : w.currency ≠ c := Ne.symm hne
          have hcur : validate_currency (some w) (some c) =
              Except.error "Transaction currency must match wallet currency." := by
            simp [validate_currency, hwc]
          simp [createTransaction, hres, hc, ht, hcur]

/-- Witness for C2: eur against owner 1's usd wallet. -/
theorem currency_mismatch_rejected_witness :
    ∃ m, (createTransaction exDb 1 exWallet.id
      ⟨"coffee", -300, Currency.eur, none, []⟩ 99 9).2 =
        Except.error (ApiError.validation m) :=
  currency_mismatch_rejected exDb 1 exWallet Currency.eur
    (by decide) (by decide) rfl (by decide) "coffee" (-300) none [] 99 9

/-- C6: archiving an owned category (DELETE on the category endpoint)
succeeds, keeps the record with `is_archived=true`, removes it from
`listCategories` for both values of `include_hidden`, and leaves every
transaction row (hence every category reference) untouched. -/
theorem archive_category_soft_delete (db : DB) (u : UserId) (c : TransactionCategory)
    (hwf : WF db) (hc : c ∈ db.categories) (hu : c.user = u) :
    (archiveCategory db u c.id).2 = Except.ok () ∧
    ({ c with is_archived := true } ∈ (archiveCategory db u c.id).1.categories) ∧
    (∀ hidden : Bool, ∀ c2 ∈ listCategories (archiveCategory db u c.id).1 u hidden,
      c2.id ≠ c.id) ∧
    (archiveCategory db u c.id).1.transactions = db.transactions := by
  have hres := category_get_object_eq_some db u c hwf hc hu
  have harch : archiveCategory db u c.id = ({ db with categories := db.categories.map (fun c3 => if c3.id = c.id then { c3 with is_archived := true } else c3) }, Except.ok ()) := by
    simp [archiveCategory, hres]
  refine ⟨by rw [harch], ?_, ?_, by rw [harch]⟩
  · rw [harch]
    have hm := List.mem_map_of_mem
      (fun c3 => if c3.id = c.id then { c3 with is_archived := true } else c3) hc
    simpa using hm
  · intro hidden c2 h2 heq
    have hbase : c2 ∈ db.categories.map (fun c3 => if c3.id = c.id then { c3 with is_archived := true } else c3) ∧ c2.is_archived = false := by
      rw [harch] at h2
      cases hidden with
      | false =>
          simp only [listCategories, Bool.false_eq_true, ite_false, List.mem_filter,
            decide_eq_true_eq] at h2
          exact ⟨h2.1.1, h2.1.2.2⟩
      | true =>
          simp only [listCategories, ite_true, List.mem_filter, decide_eq_true_eq] at h2
          exact ⟨h2.1, h2.2.2⟩
    obtain ⟨c3, hc3, hfc3⟩ := List.mem_map.mp hbase.1
    by_cases h3 : c3.id = c.id
    · rw [if_pos h3] at hfc3
      rw [← hfc3] at hbase
      simp at hbase
    · rw [if_neg h3] at hfc3
      rw [← hfc3] at heq
      exact h3 heq

/-- Witness for C6: archiving owner 1's "Groceries" category in the sample
database; the remaining listed category "Salary" has a different id. -/
theorem archive_category_soft_delete_witness :
    (archiveCategory exDb 1 exCat.id).2 = Except.ok () ∧
    ({ exCat with is_archived := true } ∈ (archiveCategory exDb 1 exCat.id).1.categories) ∧
    exCat2.id ≠ exCat.id ∧
    (archiveCategory exDb 1 exCat.id).1.transactions = exDb.transactions :=
  ⟨(archive_category_soft_delete exDb 1 exCat (by decide) (by decide) rfl).1,
   (archive_category_soft_delete exDb 1 exCat (by decide) (by decide) rfl).2.1,
   (archive_category_soft_delete exDb 1 exCat (by decide) (by decide) rfl).2.2.1
     true exCat2 (by decide),
   (archive_category_soft_delete exDb 1 exCat (by decide) (by decide) rfl).2.2.2⟩

/-- C9: deleting an owned wallet succeeds, removes the wallet, cascades to
remove every transaction of that wallet, and afterwards getting any of
those transactions by id returns NotFound. -/
theorem delete_wallet_cascades (db : DB) (u : UserId) (w : Wallet)
    (hwf : WF db) (hw : w ∈ db.wallets) (hu : w.user = u) :
    (deleteWallet db u w.id).2 = Except.ok () ∧
    (∀ w2 ∈ (deleteWallet db u w.id).1.wallets, w2.id ≠ w.id) ∧
    (∀ t ∈ (deleteWallet db u w.id).1.transactions, t.wallet ≠ w.id) ∧
    (∀ t ∈ db.transactions, t.wallet = w.id →
      getTransaction (deleteWallet db u w.id).1 u t.id = Except.error ApiError.notFound) := by
  have hres := wallet_get_object_eq_some db u w hwf hw hu
  have hdel : deleteWallet db u w.id = ({ db with wallets := db.wallets.filter (fun w2 => ¬w2.id = w.id), transactions := db.transactions.filter (fun t => ¬t.wallet = w.id) }, Except.ok ()) := by
    simp [deleteWallet, hres]
  refine ⟨by rw [hdel], ?_, ?_, ?_⟩
  · intro w2 h2
    rw [hdel] at h2
    simpa using (List.mem_filter.mp h2).2
  · intro t h2
    rw [hdel] at h2
    simpa using (List.mem_filter.mp h2).2
  · intro t ht htw
    rw [hdel]
    unfold getTransaction
    rw [transaction_get_object_none_of_absent]
    intro t2 ht2 heq
    have hmem := List.mem_filter.mp ht2
    have ht2t : t2 = t := eq_of_nodup_key hwf.2.2.2 hmem.1 ht heq
    have : ¬(t2.wallet = w.id) := by simpa using hmem.2
    exact this (ht2t ▸ htw)

/-- Witness for C9: deleting owner 1's wallet 10 from the sample database. -/
theorem delete_wallet_cascades_witness :
    (deleteWallet exDb 1 exWallet.id).2 = Except.ok () ∧
    exWalletB.id ≠ exWallet.id ∧
    exTxB.wallet ≠ exWallet.id ∧
    getTransaction (deleteWallet exDb 1 exWallet.id).1 1 exTx.id =
      Except.error ApiError.notFound :=
  ⟨(delete_wallet_cascades exDb 1 exWallet (by decide) (by decide) rfl).1,
   (delete_wallet_cascades exDb 1 exWallet (by decide) (by decide) rfl).2.1
     exWalletB (by decide),
   (delete_wallet_cascades exDb 1 exWallet (by decide) (by decide) rfl).2.2.1
     exTxB (by decide),
   (delete_wallet_cascades exDb 1 exWallet (by decide) (by decide) rfl).2.2.2
     exTx (by decide) rfl⟩

/-- C3: for distinct owners a and b, every get/update/delete attempt by a
on a record owned by b (wallet, category, tag, or — through its wallet —
transaction) yields NotFound, exactly the result obtained for an id that
does not exist at all. -/
theorem cross_owner_isolation (db : DB) (a b : UserId) (hwf : WF db) (hne : a ≠ b) :
    (∀ w ∈ db.wallets, w.user = b →
      wallet_get_object db a w.id = none ∧
      (∀ p, updateWallet db a w.id p = (db, Except.error ApiError.notFound)) ∧
      deleteWallet db a w.id = (db, Except.error ApiError.notFound)) ∧
    (∀ c ∈ db.categories, c.user = b →
      category_get_object db a c.id = none ∧
      (∀ p, updateCategory db a c.id p = (db, Except.error ApiError.notFound)) ∧
      archiveCategory db a c.id = (db, Except.error ApiError.notFound)) ∧
    (∀ t ∈ db.tags, t.user = b →
      tag_get_object db a t.id = none ∧
      (∀ p, updateTag db a t.id p = (db, Except.error ApiError.notFound)) ∧
      deleteTag db a t.id = (db, Except.error ApiError.notFound)) ∧
    (∀ t ∈ db.transactions, ∀ w ∈ db.wallets, w.id = t.wallet → w.user = b →
      getTransaction db a t.id = Except.error ApiError.notFound ∧
      (∀ pf p, updateTransaction db a pf t.id p = (db, Except.error ApiError.notFound)) ∧
      deleteTransaction db a t.id = (db, Except.error ApiError.notFound)) ∧
    (∀ wid, (∀ w ∈ db.wallets, w.id ≠ wid) →
      wallet_get_object db a wid = none ∧
      (∀ p, updateWallet db a wid p = (db, Except.error ApiError.notFound)) ∧
      deleteWallet db a wid = (db, Except.error ApiError.notFound)) ∧
    (∀ cid, (∀ c ∈ db.categories, c.id ≠ cid) →
      category_get_object db a cid = none ∧
      (∀ p, updateCategory db a cid p = (db, Except.error ApiError.notFound)) ∧
      archiveCategory db a cid = (db, Except.error ApiError.notFound)) ∧
    (∀ tid, (∀ t ∈ db.tags, t.id ≠ tid) →
      tag_get_object db a tid = none ∧
      (∀ p, updateTag db a tid p = (db, Except.error ApiError.notFound)) ∧
      deleteTag db a tid = (db, Except.error ApiError.notFound)) ∧
    (∀ txId, (∀ t ∈ db.transactions, t.id ≠ txId) →
      getTransaction db a txId = Except.error ApiError.notFound ∧
      (∀ pf p, updateTransaction db a pf txId p = (db, Except.error ApiError.notFound)) ∧
      deleteTransaction db a txId = (db, Except.error ApiError.notFound)) := by
  refine ⟨?_, ?_, ?_, ?_, ?_, ?_, ?_, ?_⟩
  · intro w hw hu
    have hnone := wallet_get_object_none_of_other db a w hwf hw (by rw [hu]; exact Ne.symm hne)
    exact ⟨hnone, fun p => by simp [updateWallet, hnone], by simp [deleteWallet, hnone]⟩
  · intro c hc hu
    have hnone := category_get_object_none_of_other db a c hwf hc (by rw [hu]; exact Ne.symm hne)
    exact ⟨hnone, fun p => by simp [updateCategory, hnone], by simp [archiveCategory, hnone]⟩
  · intro t ht hu
    have hnone := tag_get_object_none_of_other db a t hwf ht (by rw [hu]; exact Ne.symm hne)
    exact ⟨hnone, fun p => by simp [updateTag, hnone], by simp [deleteTag, hnone]⟩
  · intro t ht w hw hwid hu
    have hnone := transaction_get_object_none_of_other db a t w hwf ht hw hwid
      (by rw [hu]; exact Ne.symm hne)
    exact ⟨by simp [getTransaction, hnone], fun pf p => by simp [updateTransaction, hnone],
      by simp [deleteTransaction, hnone]⟩
  · intro wid h
    have hnone := wallet_get_object_none_of_absent db a wid h
    exact ⟨hnone, fun p => by simp [updateWallet, hnone], by simp [deleteWallet, hnone]⟩
  · intro cid h
    have hnone := category_get_object_none_of_absent db a cid h
    exact ⟨hnone, fun p => by simp [updateCategory, hnone], by simp [archiveCategory, hnone]⟩
  · intro tid h
    have hnone := tag_get_object_none_of_absent db a tid h
    exact ⟨hnone, fun p => by simp [updateTag, hnone], by simp [deleteTag, hnone]⟩
  · intro txId h
    have hnone := transaction_get_object_none_of_absent db a txId h
    exact ⟨by simp [getTransaction, hnone], fun pf p => by simp [updateTransaction, hnone],
      by simp [deleteTransaction, hnone]⟩

/-- Witness for C3: owner 1 against owner 2's records in the sample
database, and against an absent id. -/
theorem cross_owner_isolation_witness :
    wallet_get_object exDb 1 exWalletB.id = none ∧
    updateWallet exDb 1 exWalletB.id ⟨none, none, none⟩ =
      (exDb, Except.error ApiError.notFound) ∧
    deleteWallet exDb 1 exWalletB.id = (exDb, Except.error ApiError.notFound) ∧
    category_get_object exDb 1 exCatB.id = none ∧
    archiveCategory exDb 1 exCatB.id = (exDb, Except.error ApiError.notFound) ∧
    tag_get_object exDb 1 exTagB.id = none ∧
    deleteTag exDb 1 exTagB.id = (exDb, Except.error ApiError.notFound) ∧
    getTransaction exDb 1 exTxB.id = Except.error ApiError.notFound ∧
    deleteTransaction exDb 1 exTxB.id = (exDb, Except.error ApiError.notFound) ∧
    wallet_get_object exDb 1 999 = none := by
  have h := cross_owner_isolation exDb 1 2 (by decide) (by decide)
  exact ⟨(h.1 exWalletB (by decide) rfl).1,
    (h.1 exWalletB (by decide) rfl).2.1 ⟨none, none, none⟩,
    (h.1 exWalletB (by decide) rfl).2.2,
    (h.2.1 exCatB (by decide) rfl).1,
    (h.2.1 exCatB (by decide) rfl).2.2,
    (h.2.2.1 exTagB (by decide) rfl).1,
    (h.2.2.1 exTagB (by decide) rfl).2.2,
    (h.2.2.2.1 exTxB (by decide) exWalletB (by decide) rfl rfl).1,
    (h.2.2.2.1 exTxB (by decide) exWalletB (by decide) rfl rfl).2.2,
    (h.2.2.2.2.1 999 (by decide)).1⟩

/-- C8: create and update of a transaction run all validation (wallet
resolution, category ownership, tag ownership, currency match) before any
write: whenever the result is an error, the database is exactly the input
database — no row, no tag link and no wallet balance has changed. -/
theorem validation_failure_preserves_state :
    (∀ (db : DB) (u : UserId) (wid : WalletId) (p : TxPayload) (fresh : TxId) (date : Nat)
        (e : ApiError),
      (createTransaction db u wid p fresh date).2 = Except.error e →
        (createTransaction db u wid p fresh date).1 = db ∧
        ∀ w, get_balance (createTransaction db u wid p fresh date).1 w = get_balance db w) ∧
    (∀ (db : DB) (u : UserId) (pf : Bool) (txId : TxId) (p : TxUpdatePayload) (e : ApiError),
      (updateTransaction db u pf txId p).2 = Except.error e →
        (updateTransaction db u pf txId p).1 = db ∧
        ∀ w, get_balance (updateTransaction db u pf txId p).1 w = get_balance db w) := by
  constructor
  · intro db u wid p fresh date e h
    have hdb : (createTransaction db u wid p fresh date).1 = db := by
      cases hw : wallet_get_object db u wid with
      | none => simp [createTransaction, hw]
      | some w =>
          cases hc : validate_category_id db u p.category_id with
          | error m => simp [createTransaction, hw, hc]
          | ok v =>
              cases ht : validate_tag_ids db u p.tag_ids with
              | error m => simp [createTransaction, hw, hc, ht]
              | ok v2 =>
                  cases hcur : validate_currency (some w) (some p.currency) with
                  | error m => simp [createTransaction, hw, hc, ht, hcur]
                  | ok v3 => simp [createTransaction, hw, hc, ht, hcur] at h
    exact ⟨hdb, fun w => by rw [hdb]⟩
  · intro db u pf txId p e h
    have hdb : (updateTransaction db u pf txId p).1 = db := by
      cases hto : transaction_get_object db u txId with
      | none => simp [updateTransaction, hto]
      | some t =>
          cases hwfind : db.wallets.find? (fun w => w.id = t.wallet) with
          | none => simp [updateTransaction, hto, hwfind]
          | some w =>
              by_cases hreq : pf = false ∧ (p.note = none ∨ p.amount = none ∨ p.currency = none)
              · simp [updateTransaction, hto, hwfind, hreq]
              · cases hc : validate_category_id db u
                    (if p.category_id_present then p.category_id else none) with
                | error m => simp [updateTransaction, hto, hwfind, hreq, hc]
                | ok v =>
                    cases ht : validate_tag_ids db u ((deserialize_tag_ids pf p).getD []) with
                    | error m => simp [updateTransaction, hto, hwfind, hreq, hc, ht]
                    | ok v2 =>
                        cases hcur : validate_currency (some w) p.currency with
                        | error m => simp [updateTransaction, hto, hwfind, hreq, hc, ht, hcur]
                        | ok v3 => simp [updateTransaction, hto, hwfind, hreq, hc, ht, hcur] at h
    exact ⟨hdb, fun w => by rw [hdb]⟩

/-- Witness for C8: a currency-mismatch create and a NotFound update, both
leaving the sample database untouched. -/
theorem validation_failure_preserves_state_witness :
    (createTransaction exDb 1 10 ⟨"coffee", -300, Currency.eur, none, []⟩ 99 9).1 = exDb ∧
    (updateTransaction exDb 1 true 999 ⟨none, none, none, false, none, none⟩).1 = exDb := by
  have h1 := validation_failure_preserves_state.1 exDb 1 10
    ⟨"coffee", -300, Currency.eur, none, []⟩ 99 9
    (ApiError.validation "Transaction currency must match wallet currency.") rfl
  have h2 := validation_failure_preserves_state.2 exDb 1 true 999
    ⟨none, none, none, false, none, none⟩ ApiError.notFound rfl
  exact ⟨h1.1, h2.1⟩

/-- A validated tag list only contains tags owned by the user. -/
theorem validate_tag_ids_ok_all (db : DB) (u : UserId) :
    ∀ (l r : List TagId), validate_tag_ids db u l = Except.ok r →
      ∀ x ∈ l, ∃ tg ∈ db.tags, tg.id = x ∧ tg.user = u := by
  intro l
  induction l with
  | nil => intro r h x hx; cases hx
  | cons a as ih =>
      intro r h x hx
      unfold validate_tag_ids at h
      by_cases hA : db.tags.any (fun t => t.id = a ∧ t.user = u) = true
      · rw [if_pos hA] at h
        rcases List.mem_cons.mp hx with rfl | hmem
        · rw [List.any_eq_true] at hA
          obtain ⟨tg, htg, hp⟩ := hA
          simp only [decide_eq_true_eq] at hp
          exact ⟨tg, htg, hp⟩
        · cases hrec : validate_tag_ids db u as with
          | ok r2 => exact ih r2 hrec x hmem
          | error m => rw [hrec] at h; cases h
      · rw [if_neg hA] at h; cases h

/-- Membership in the linked tag set produced by `tags.set(...)`. -/
theorem mem_ownedTagIds (db : DB) (u : UserId) (l : List TagId) (x : TagId) :
    x ∈ ownedTagIds db u l ↔ ∃ tg ∈ db.tags, tg.id = x ∧ x ∈ l ∧ tg.user = u := by
  unfold ownedTagIds
  constructor
  · intro hx
    obtain ⟨tg, htg, hid⟩ := List.mem_map.mp hx
    have hf := List.mem_filter.mp htg
    simp only [decide_eq_true_eq] at hf
    exact ⟨tg, hf.1, hid, hid ▸ hf.2.1, hf.2.2⟩
  · rintro ⟨tg, htg, hid, hxl, hu⟩
    apply List.mem_map.mpr
    refine ⟨tg, List.mem_filter.mpr ⟨htg, ?_⟩, hid⟩
    simp only [decide_eq_true_eq]
    exact ⟨hid.symm ▸ hxl, hu⟩

/-- A successful transaction update resolved the row and produced exactly
the serializer's updated row, with the tag-id validation having passed. -/
theorem updateTransaction_ok_shape (db : DB) (u : UserId) (pf : Bool) (txId : TxId)
    (p : TxUpdatePayload) (t2 : Transaction)
    (h : (updateTransaction db u pf txId p).2 = Except.ok t2) :
    ∃ t, transaction_get_object db u txId = some t ∧
      (∃ r, validate_tag_ids db u ((deserialize_tag_ids pf p).getD []) = Except.ok r) ∧
      t2 = serializer_update db u t p (deserialize_tag_ids pf p) := by
  cases hto : transaction_get_object db u txId with
  | none => simp [updateTransaction, hto] at h
  | some t =>
      cases hwfind : db.wallets.find? (fun w => w.id = t.wallet) with
      | none => simp [updateTransaction, hto, hwfind] at h
      | some w =>
          by_cases hreq : pf = false ∧ (p.note = none ∨ p.amount = none ∨ p.currency = none)
          · simp [updateTransaction, hto, hwfind, hreq] at h
          · cases hc : validate_category_id db u
                (if p.category_id_present then p.category_id else none) with
            | error m => simp [updateTransaction, hto, hwfind, hreq, hc] at h
            | ok v =>
                cases ht : validate_tag_ids db u ((deserialize_tag_ids pf p).getD []) with
                | error m => simp [updateTransaction, hto, hwfind, hreq, hc, ht] at h
                | ok v2 =>
                    cases hcur : validate_currency (some w) p.currency with
                    | error m => simp [updateTransaction, hto, hwfind, hreq, hc, ht, hcur] at h
                    | ok v3 =>
                        simp [updateTransaction, hto, hwfind, hreq, hc, ht, hcur] at h
                        exact ⟨t, rfl, ⟨v2, rfl⟩, h.symm⟩

/-- Counterexample to C7: owner 1's category 51 is archived, yet creating a
transaction with `category_id = 51` succeeds and attaches it. -/
theorem archived_category_attach_cex :
    exCatArch.is_archived = true ∧ exCatArch.user = 1 ∧
    (createTransaction exDb 1 exWallet.id
      ⟨"hobby gear", -2000, Currency.usd, some exCatArch.id, []⟩ 99 9).2 =
      Except.ok ⟨99, "hobby gear", -2000, Currency.usd, 9, 10, 1, some 51, []⟩ :=
  ⟨rfl, rfl, rfl⟩

/-- C7 amended: an archived owned category is excluded from
`listCategories` (the selection list offered for new transactions) for both
values of `include_hidden`, but creating a transaction that names its id
with an otherwise valid payload succeeds and attaches the archived
category, while all historical transaction rows are preserved unchanged. -/
theorem archived_category_selection_amended (db : DB) (u : UserId)
    (c : TransactionCategory) (hwf : WF db) (hc : c ∈ db.categories)
    (hu : c.user = u) (ha : c.is_archived = true) :
    (∀ hidden : Bool, c ∉ listCategories db u hidden) ∧
    (∀ w ∈ db.wallets, w.user = u → ∀ (note : String) (amt : Int) (fresh : TxId) (date : Nat),
      ∃ t2, (createTransaction db u w.id ⟨note, amt, w.currency, some c.id, []⟩ fresh date).2 =
          Except.ok t2 ∧
        t2.category = some c.id ∧
        (createTransaction db u w.id ⟨note, amt, w.currency, some c.id, []⟩ fresh date).1.transactions =
          db.transactions ++ [t2]) := by
  constructor
  · intro hidden hmem
    have hbase : c.is_archived = false := by
      cases hidden with
      | true =>
          simp only [listCategories, ite_true, List.mem_filter, decide_eq_true_eq] at hmem
          exact hmem.2.2
      | false =>
          simp only [listCategories, Bool.false_eq_true, ite_false, List.mem_filter,
            decide_eq_true_eq] at hmem
          exact hmem.1.2.2
    rw [ha] at hbase
    exact Bool.noConfusion hbase
  · intro w hw hwu note amt fresh date
    have hres := wallet_get_object_eq_some db u w hwf hw hwu
    have hcv : validate_category_id db u (some c.id) = Except.ok (some c.id) := by
      have hany : (db.categories.any fun c2 => decide (c2.id = c.id ∧ c2.user = u)) = true := by
        rw [List.any_eq_true]
        exact ⟨c, hc, by simp [hu]⟩
      simp [validate_category_id, hany]
      exact ⟨c, hc, rfl, hu⟩
    have hcur : validate_currency (some w) (some w.currency) = Except.ok () := by
      simp [validate_currency]
    refine ⟨serializer_create db u w fresh date ⟨note, amt, w.currency, some c.id, []⟩,
      ?_, rfl, ?_⟩
    · simp [createTransaction, hres, hcv, validate_tag_ids, hcur]
    · simp [createTransaction, hres, hcv, validate_tag_ids, hcur]

/-- Witness for the amended C7 at the sample database. -/
theorem archived_category_selection_amended_witness :
    exCatArch ∉ listCategories exDb 1 true ∧
    (∃ t2, (createTransaction exDb 1 exWallet.id
        ⟨"hobby gear", -2000, exWallet.currency, some exCatArch.id, []⟩ 99 9).2 =
          Except.ok t2 ∧
      t2.category = some exCatArch.id ∧
      (createTransaction exDb 1 exWallet.id
        ⟨"hobby gear", -2000, exWallet.currency, some exCatArch.id, []⟩ 99 9).1.transactions =
        exDb.transactions ++ [t2]) := by
  have h := archived_category_selection_amended exDb 1 exCatArch
    (by decide) (by decide) rfl rfl
  exact ⟨h.1 true, h.2 exWallet (by decide) rfl "hobby gear" (-2000) 99 9⟩

/-- Counterexample to C10: a full (PUT) update whose payload omits
`tag_ids` — the field default `[]` applies — clears the transaction's tag
set instead of leaving it unchanged. -/
theorem update_omitted_tag_ids_cex :
    exTx.tags = [20] ∧
    (updateTransaction exDb 1 false 30
      ⟨some "Weekly groceries", some (-15050), some Currency.usd, false, none, none⟩).2 =
      Except.ok { exTx with tags := ([] : List TagId) } :=
  ⟨rfl, rfl⟩

/-- C10 amended: on a partial (PATCH) update an omitted `tag_ids` leaves
the tag set unchanged; a supplied `tag_ids` (including `[]`) replaces the
tag set with exactly the listed tags; but on a full (PUT) update an omitted
`tag_ids` receives the declared field default `[]` and therefore clears all
tags. -/
theorem update_tag_ids_semantics :
    (∀ (db : DB) (u : UserId) (txId : TxId) (p : TxUpdatePayload) (t t2 : Transaction),
      p.tag_ids = none →
      transaction_get_object db u txId = some t →
      (updateTransaction db u true txId p).2 = Except.ok t2 →
      t2.tags = t.tags) ∧
    (∀ (db : DB) (u : UserId) (pf : Bool) (txId : TxId) (p : TxUpdatePayload)
        (l : List TagId) (t2 : Transaction),
      p.tag_ids = some l →
      (updateTransaction db u pf txId p).2 = Except.ok t2 →
      ∀ x, x ∈ t2.tags ↔ x ∈ l) ∧
    (∀ (db : DB) (u : UserId) (txId : TxId) (p : TxUpdatePayload) (t2 : Transaction),
      p.tag_ids = none →
      (updateTransaction db u false txId p).2 = Except.ok t2 →
      t2.tags = []) := by
  refine ⟨?_, ?_, ?_⟩
  · intro db u txId p t t2 hp hto h
    obtain ⟨t3, hto3, _, hser⟩ := updateTransaction_ok_shape db u true txId p t2 h
    rw [hto] at hto3
    cases hto3
    have hdes : deserialize_tag_ids true p = none := by
      simp [deserialize_tag_ids, hp]
    rw [hser, hdes]
    simp [serializer_update]
  · intro db u pf txId p l t2 hp h x
    obtain ⟨t3, hto3, hval, hser⟩ := updateTransaction_ok_shape db u pf txId p t2 h
    have hdes : deserialize_tag_ids pf p = some l := by
      simp [deserialize_tag_ids, hp]
    rw [hdes] at hval hser
    obtain ⟨r, hr⟩ := hval
    have htags : t2.tags = ownedTagIds db u l := by
      rw [hser]
      simp [serializer_update]
    rw [htags]
    constructor
    · intro hx
      exact ((mem_ownedTagIds db u l x).mp hx).choose_spec.2.2.1
    · intro hx
      obtain ⟨tg, htg, hid, hu2⟩ := validate_tag_ids_ok_all db u l r hr x hx
      exact (mem_ownedTagIds db u l x).mpr ⟨tg, htg, hid, hx, hu2⟩
  · intro db u txId p t2 hp h
    obtain ⟨t3, hto3, hval, hser⟩ := updateTransaction_ok_shape db u false txId p t2 h
    have hdes : deserialize_tag_ids false p = some [] := by
      simp [deserialize_tag_ids, hp]
    rw [hser, hdes]
    simp [serializer_update, ownedTagIds]

/-- Witness for the amended C10: PATCH-omit keeps the tags, supplying the
list keeps exactly it, PUT-omit clears them, all on the sample database. -/
theorem update_tag_ids_semantics_witness :
    ({ exTx with note := "patched" } : Transaction).tags = exTx.tags ∧
    (20 ∈ exTx.tags ↔ 20 ∈ [20]) ∧
    ({ exTx with tags := ([] : List TagId) } : Transaction).tags = [] := by
  refine ⟨?_, ?_, ?_⟩
  · exact update_tag_ids_semantics.1 exDb 1 30
      ⟨some "patched", none, none, false, none, none⟩ exTx
      { exTx with note := "patched" } rfl rfl rfl
  · exact update_tag_ids_semantics.2.1 exDb 1 false 30
      ⟨some "Weekly groceries", some (-15050), some Currency.usd, false, none, some [20]⟩
      [20] exTx rfl rfl 20
  · exact update_tag_ids_semantics.2.2 exDb 1 30
      ⟨some "Weekly groceries", some (-15050), some Currency.usd, false, none, none⟩
      { exTx with tags := ([] : List TagId) } rfl rfl

end Budgeting
